import Mathlib

set_option maxRecDepth 8192

/-!
Verification of the GitLab webhook request pipeline of scm-engine
(src/cmd/gitlab_server_handlers.go, function GitLabWebhookHandler).

The handler is embedded as a pure function from an abstract request
environment to a result record that collects every HTTP write the handler
performs together with observability flags (which pipeline stages ran,
which external collaborators were invoked, and the correlation context).

The Go code decodes the POST body twice with encoding/json: once strictly
into the GitlabWebhookPayload struct and once into an untyped value. Both
decodes run the same scanner over the same bytes, so the model implements
one JSON parser over the body characters that keeps each number literal as
its text, the way the Go scanner keeps the literal bytes. The typed decode
interprets the document against the payload struct, skipping unknown
fields without converting their values and applying ParseInt semantics
(integer syntax, int64 range) to int fields; the untyped decode
materializes every number literal to float64 via ParseFloat, which fails
with a range error on a literal whose magnitude overflows float64 — an
error path the handler meets at its second decode.
-/

/-- A parsed JSON document. A number carries its literal text, the way the
Go scanner keeps the literal bytes: each decode target then interprets the
literal itself — ParseInt for an int struct field, ParseFloat for the
untyped decode into `any`. -/
inductive Json where
  | null : Json
  | jbool : Bool → Json
  | jnum : String → Json
  | jstr : String → Json
  | jarr : List Json → Json
  | jobj : List (String × Json) → Json

/- Structural characters of the JSON grammar, named by their ASCII codes:
123 and 125 are the opening and closing curly braces, 34 the double quote,
92 the backslash. -/

def lbrace : Char := Char.ofNat 123

def rbrace : Char := Char.ofNat 125

def dquote : Char := Char.ofNat 34

def bslash : Char := Char.ofNat 92

def isWsChar (c : Char) : Bool :=
  c = ' ' || c = '\t' || c = '\n' || c = '\r'

def skipWs : List Char → List Char
  | [] => []
  | c :: cs => if isWsChar c then skipWs cs else c :: cs

def hexVal (c : Char) : Option Nat :=
  if '0' ≤ c ∧ c ≤ '9' then some (c.toNat - '0'.toNat)
  else if 'a' ≤ c ∧ c ≤ 'f' then some (c.toNat - 'a'.toNat + 10)
  else if 'A' ≤ c ∧ c ≤ 'F' then some (c.toNat - 'A'.toNat + 10)
  else none

/-- Body of a JSON string literal, after the opening quote; returns the
decoded string and the remaining input. -/
def parseStringBody (acc : List Char) : List Char → Except String (String × List Char)
  | [] => .error ("unexpected end of string literal")
  | c :: cs =>
    if c = dquote then .ok (String.mk acc.reverse, cs)
    else if c = bslash then
      match cs with
      | [] => .error ("unexpected end of escape sequence")
      | e :: cs2 =>
        if e = dquote then parseStringBody (dquote :: acc) cs2
        else if e = bslash then parseStringBody (bslash :: acc) cs2
        else if e = '/' then parseStringBody ('/' :: acc) cs2
        else if e = 'b' then parseStringBody (Char.ofNat 8 :: acc) cs2
        else if e = 'f' then parseStringBody (Char.ofNat 12 :: acc) cs2
        else if e = 'n' then parseStringBody ('\n' :: acc) cs2
        else if e = 'r' then parseStringBody ('\r' :: acc) cs2
        else if e = 't' then parseStringBody ('\t' :: acc) cs2
        else if e = 'u' then
          match cs2 with
          | h1 :: h2 :: h3 :: h4 :: cs3 =>
            match hexVal h1, hexVal h2, hexVal h3, hexVal h4 with
            | some a, some b, some c2, some d =>
              parseStringBody (Char.ofNat (((a * 16 + b) * 16 + c2) * 16 + d) :: acc) cs3
            | _, _, _, _ => .error ("invalid unicode escape")
          | _ => .error ("unexpected end of unicode escape")
        else .error ("invalid escape character")
    else parseStringBody (c :: acc) cs

def takeDigits : List Char → List Char × List Char
  | [] => ([], [])
  | c :: cs =>
    if c.isDigit then
      let r := takeDigits cs
      (c :: r.1, r.2)
    else ([], c :: cs)

def digitsToNat (ds : List Char) : Nat :=
  ds.foldl (fun n c => n * 10 + (c.toNat - '0'.toNat)) 0

/-- Optional exponent part of a number literal; returns the exponent
characters (possibly none) and the remaining input. -/
def parseExpPart (cs : List Char) : Except String (List Char × List Char) :=
  match cs with
  | [] => .ok ([], [])
  | c :: cs1 =>
    if c = 'e' ∨ c = 'E' then
      let sgn : List Char × List Char :=
        match cs1 with
        | s :: r => if s = '+' ∨ s = '-' then ([s], r) else ([], cs1)
        | [] => ([], cs1)
      match takeDigits sgn.2 with
      | ([], _) => .error ("invalid number exponent")
      | (eds, cs3) => .ok (c :: sgn.1 ++ eds, cs3)
    else .ok ([], c :: cs1)

/-- A JSON number literal: sign, integer part without leading zeros,
optional fraction and exponent. Only the syntax is validated here; the
literal characters are kept, as the Go scanner keeps the literal bytes. -/
def parseNumber (cs : List Char) : Except String (List Char × List Char) :=
  let signSplit : List Char × List Char :=
    match cs with
    | c :: rest => if c = '-' then ([c], rest) else ([], cs)
    | [] => ([], [])
  match takeDigits signSplit.2 with
  | ([], _) => .error ("invalid number literal")
  | (ds, cs2) =>
    if ds.length > 1 ∧ ds.headD '0' = '0' then .error ("invalid leading zero")
    else
      match cs2 with
      | '.' :: cs3 =>
        match takeDigits cs3 with
        | ([], _) => .error ("invalid number fraction")
        | (fs, cs4) =>
          (parseExpPart cs4).map
            (fun p => (signSplit.1 ++ ds ++ '.' :: fs ++ p.1, p.2))
      | _ =>
        (parseExpPart cs2).map (fun p => (signSplit.1 ++ ds ++ p.1, p.2))

def dropLit : List Char → List Char → Option (List Char)
  | [], cs => some cs
  | _ :: _, [] => none
  | l :: ls, c :: cs => if c = l then dropLit ls cs else none

mutual

/-- One JSON value, fuel-bounded recursion over nesting depth. -/
def parseValue : Nat → List Char → Except String (Json × List Char)
  | 0, _ => .error ("value nesting too deep")
  | fuel + 1, cs =>
    match skipWs cs with
    | [] => .error ("EOF")
    | c :: cs1 =>
      if c = dquote then
        (parseStringBody [] cs1).map (fun p => (.jstr p.1, p.2))
      else if c = lbrace then parseObjMembers fuel cs1 []
      else if c = '[' then parseArrElems fuel cs1 []
      else if c = 't' then
        match dropLit ("rue".data) cs1 with
        | some rest => .ok (.jbool true, rest)
        | none => .error ("invalid literal")
      else if c = 'f' then
        match dropLit ("alse".data) cs1 with
        | some rest => .ok (.jbool false, rest)
        | none => .error ("invalid literal")
      else if c = 'n' then
        match dropLit ("ull".data) cs1 with
        | some rest => .ok (.null, rest)
        | none => .error ("invalid literal")
      else if c = '-' ∨ c.isDigit then
        (parseNumber (c :: cs1)).map (fun t => (.jnum (String.mk t.1), t.2))
      else .error ("invalid character at start of value")

/-- Members of an object after the opening brace or after a comma. -/
def parseObjMembers : Nat → List Char → List (String × Json) →
    Except String (Json × List Char)
  | 0, _, _ => .error ("object nesting too deep")
  | fuel + 1, cs, acc =>
    match skipWs cs with
    | [] => .error ("unexpected end of object")
    | c :: cs1 =>
      if c = rbrace then
        if acc.isEmpty then .ok (.jobj [], cs1)
        else .error ("unexpected close after comma")
      else if c = dquote then
        match parseStringBody [] cs1 with
        | .error e => .error e
        | .ok (k, cs2) =>
          match skipWs cs2 with
          | ':' :: cs3 =>
            match parseValue fuel cs3 with
            | .error e => .error e
            | .ok (v, cs4) =>
              match skipWs cs4 with
              | ',' :: cs5 => parseObjMembers fuel cs5 (acc ++ [(k, v)])
              | c2 :: cs5 =>
                if c2 = rbrace then .ok (.jobj (acc ++ [(k, v)]), cs5)
                else .error ("expected comma or end of object")
              | [] => .error ("unexpected end of object")
          | _ => .error ("expected colon in object member")
      else .error ("expected string key in object")

/-- Elements of an array after the opening bracket or after a comma. -/
def parseArrElems : Nat → List Char → List Json →
    Except String (Json × List Char)
  | 0, _, _ => .error ("array nesting too deep")
  | fuel + 1, cs, acc =>
    match skipWs cs with
    | ']' :: cs1 =>
      if acc.isEmpty then .ok (.jarr [], cs1)
      else .error ("unexpected close after comma")
    | cs1 =>
      match parseValue fuel cs1 with
      | .error e => .error e
      | .ok (v, cs2) =>
        match skipWs cs2 with
        | ',' :: cs3 => parseArrElems fuel cs3 (acc ++ [v])
        | ']' :: cs3 => .ok (.jarr (acc ++ [v]), cs3)
        | _ => .error ("expected comma or end of array")

end

/-- One JSON document read from the body characters, mirroring a single
json.Decoder.Decode call: leading whitespace is skipped, empty input is an
EOF error, trailing input after the first value is not inspected. -/
def parseJson (cs : List Char) : Except String Json :=
  (parseValue (cs.length + 1) cs).map (fun p => p.1)

/-- The pieces of a JSON number literal: sign, integer digits, fraction
digits and the signed decimal exponent value. -/
structure NumParts where
  neg : Bool
  intDigits : List Char
  fracDigits : List Char
  exp : Int

/-- Decomposition of a number literal already validated by the scanner. -/
def splitNumLit (cs : List Char) : NumParts :=
  let signSplit : Bool × List Char :=
    match cs with
    | c :: rest => if c = '-' then (true, rest) else (false, cs)
    | [] => (false, [])
  let ip := takeDigits signSplit.2
  let fp : List Char × List Char :=
    match ip.2 with
    | '.' :: r => takeDigits r
    | _ => ([], ip.2)
  let e : Int :=
    match fp.2 with
    | c :: r =>
      if c = 'e' ∨ c = 'E' then
        match r with
        | s :: r2 =>
          if s = '-' then -((digitsToNat (takeDigits r2).1 : Nat) : Int)
          else if s = '+' then ((digitsToNat (takeDigits r2).1 : Nat) : Int)
          else ((digitsToNat (takeDigits r).1 : Nat) : Int)
        | [] => 0
      else 0
    | [] => 0
  ⟨signSplit.1, ip.1, fp.1, e⟩

/-- The bounds of a signed 64 bit integer, the Go int on the platforms
this server targets. -/
def int64Min : Int := -9223372036854775808

def int64Max : Int := 9223372036854775807

/-- strconv.ParseInt with base 10 and bit size 64, which encoding/json
applies to a number literal decoded into a Go int field: an optional sign
followed by digits only (a fraction or exponent is a syntax error), and
the value must fit in a signed 64 bit integer. -/
def goParseInt (s : String) : Except String Int :=
  let cs := s.data
  let signSplit : Bool × List Char :=
    match cs with
    | c :: rest =>
      if c = '-' then (true, rest)
      else if c = '+' then (false, rest)
      else (false, cs)
    | [] => (false, [])
  if signSplit.2.isEmpty ∨ signSplit.2.any (fun c => !c.isDigit) then
    .error ("invalid integer syntax " ++ s)
  else
    let n : Int := ((digitsToNat signSplit.2 : Nat) : Int)
    let v := if signSplit.1 then -n else n
    if v < int64Min ∨ int64Max < v then
      .error ("integer " ++ s ++ " out of int64 range")
    else .ok v

/-- The smallest decimal magnitude that strconv.ParseFloat with bit size
64 rounds to infinity, returning an ErrRange error: halfway between the
largest finite float64 and the next power of two, with the tie rounding
up to infinity under ties-to-even. Decimal underflow is not an error:
ParseFloat returns zero with no error for magnitudes below the smallest
subnormal. -/
def float64OverflowBound : Nat := 2 ^ 1024 - 2 ^ 970

/-- Whether ParseFloat on this number literal overflows float64: the
magnitude m times 10 to the k reaches the overflow bound, where m collects
the integer and fraction digits and k is the exponent lowered by the
number of fraction digits. -/
def numLitOverflows (s : String) : Bool :=
  let p := splitNumLit s.data
  let m : Nat := digitsToNat (p.intDigits ++ p.fracDigits)
  let k : Int := p.exp - p.fracDigits.length
  if 0 ≤ k then
    decide (float64OverflowBound ≤ m * 10 ^ k.toNat)
  else
    decide (float64OverflowBound * 10 ^ (-k).toNat ≤ m)

mutual

/-- The number materialization the untyped decode performs on the parsed
document: every number literal is handed to ParseFloat, which fails with a
range error on an overflowing literal. The float64 values themselves are
opaque to the handler, which only forwards the decoded payload, so on
success the document is returned as is. -/
def convertNumbers : Json → Except String Json
  | .null => .ok .null
  | .jbool b => .ok (.jbool b)
  | .jstr s => .ok (.jstr s)
  | .jnum s =>
    if numLitOverflows s then
      .error ("cannot unmarshal number " ++ s ++ " into float64")
    else .ok (.jnum s)
  | .jarr xs => (convertNumbersList xs).map (fun ys => .jarr ys)
  | .jobj fs => (convertNumbersFields fs).map (fun gs => .jobj gs)

def convertNumbersList : List Json → Except String (List Json)
  | [] => .ok []
  | x :: xs =>
    match convertNumbers x with
    | .error e => .error e
    | .ok y =>
      match convertNumbersList xs with
      | .error e => .error e
      | .ok ys => .ok (y :: ys)

def convertNumbersFields : List (String × Json) → Except String (List (String × Json))
  | [] => .ok []
  | (k, v) :: fs =>
    match convertNumbers v with
    | .error e => .error e
    | .ok w =>
      match convertNumbersFields fs with
      | .error e => .error e
      | .ok ws => .ok ((k, w) :: ws)

end

mutual

/-- Whether every number literal in the document is within float64 range,
so that the untyped materialization cannot fail on it. -/
def jsonNumbersInRange : Json → Bool
  | .null => true
  | .jbool _ => true
  | .jstr _ => true
  | .jnum s => !numLitOverflows s
  | .jarr xs => jsonListInRange xs
  | .jobj fs => jsonFieldsInRange fs

def jsonListInRange : List Json → Bool
  | [] => true
  | x :: xs => jsonNumbersInRange x && jsonListInRange xs

def jsonFieldsInRange : List (String × Json) → Bool
  | [] => true
  | (_, v) :: fs => jsonNumbersInRange v && jsonFieldsInRange fs

end

/-- Modelled from the spec: the nested last-commit object of the payload
struct (the struct definition lives outside src/); only its id field is
read by the handler. -/
structure LastCommit where
  id : String
deriving DecidableEq

/-- Modelled from the spec: the shape shared by the object_attributes and
merge_request envelope members, carrying the internal ID and the last
commit; section 3 of the spec names exactly these fields. -/
structure EventAttributes where
  iid : Int
  lastCommit : LastCommit
deriving DecidableEq

/-- Modelled from the spec: the project identity member of the payload. -/
structure ProjectInfo where
  pathWithNamespace : String
deriving DecidableEq

/-- Modelled from the spec: GitlabWebhookPayload, the typed envelope the
handler decodes the body into; its Go definition lives outside src/ and is
reconstructed from the fields the handler reads and the field paths the
spec names in sections 3 and 6. -/
structure GitlabWebhookPayload where
  eventType : String
  project : ProjectInfo
  objectAttributes : EventAttributes
  mergeRequest : EventAttributes
deriving DecidableEq

def zeroLastCommit : LastCommit := ⟨""⟩

def zeroEventAttributes : EventAttributes := ⟨0, zeroLastCommit⟩

def zeroProjectInfo : ProjectInfo := ⟨""⟩

def zeroPayload : GitlabWebhookPayload :=
  ⟨"", zeroProjectInfo, zeroEventAttributes, zeroEventAttributes⟩

/-- Case-insensitive equality of field names, modelling the fold that
encoding/json applies when matching an object key to a struct field; the
field names of this payload are ASCII, for which lowercasing both sides
matches the Go fold. -/
def foldChar (c : Char) : Char :=
  if 'A' ≤ c ∧ c ≤ 'Z' then Char.ofNat (c.toNat + 32) else c

def foldEq (a b : String) : Bool :=
  a.data.map foldChar == b.data.map foldChar

/-- The binding a struct field receives from an object: keys are matched
to the field name case-insensitively, and of several matching keys the
one seen last wins, since encoding/json overwrites the field as keys are
processed in document order. -/
def jLookup (fs : List (String × Json)) (k : String) : Option Json :=
  match fs.reverse.find? (fun p => foldEq p.1 k) with
  | some p => some p.2
  | none => none

/-- A string field: absent or null leaves the zero value, a string literal
is taken, anything else is a type mismatch, as in encoding/json. -/
def getStrField (fs : List (String × Json)) (k : String) : Except String String :=
  match jLookup fs k with
  | none => .ok ""
  | some .null => .ok ""
  | some (.jstr s) => .ok s
  | some _ => .error ("cannot unmarshal value into string field " ++ k)

/-- An int field: absent or null leaves zero, a number literal is handed
to ParseInt, which rejects fraction or exponent syntax and int64 overflow,
and any other kind is a mismatch, as in encoding/json decoding into a Go
int. -/
def getIntField (fs : List (String × Json)) (k : String) : Except String Int :=
  match jLookup fs k with
  | none => .ok 0
  | some .null => .ok 0
  | some (.jnum s) => goParseInt s
  | some _ => .error ("cannot unmarshal value into int field " ++ k)

def interpLastCommit : Json → Except String LastCommit
  | .null => .ok zeroLastCommit
  | .jobj fs => (getStrField fs ("id")).map (fun s => ⟨s⟩)
  | _ => .error ("cannot unmarshal value into LastCommit")

def interpEventAttributes : Json → Except String EventAttributes
  | .null => .ok zeroEventAttributes
  | .jobj fs =>
    match getIntField fs ("iid") with
    | .error e => .error e
    | .ok iid =>
      match jLookup fs ("last_commit") with
      | none => .ok ⟨iid, zeroLastCommit⟩
      | some v => (interpLastCommit v).map (fun lc => ⟨iid, lc⟩)
  | _ => .error ("cannot unmarshal value into attributes struct")

def interpProject : Json → Except String ProjectInfo
  | .null => .ok zeroProjectInfo
  | .jobj fs => (getStrField fs ("path_with_namespace")).map (fun s => ⟨s⟩)
  | _ => .error ("cannot unmarshal value into Project")

/-- Interpretation of a parsed JSON document as the typed envelope: the
strict half of the typed decode. A top level null leaves the zero struct,
as encoding/json does; anything but an object or null is a mismatch. -/
def interpPayload : Json → Except String GitlabWebhookPayload
  | .null => .ok zeroPayload
  | .jobj fs =>
    match getStrField fs ("event_type") with
    | .error e => .error e
    | .ok et =>
      match (match jLookup fs ("project") with
             | none => .ok zeroProjectInfo
             | some v => interpProject v : Except String ProjectInfo) with
      | .error e => .error e
      | .ok pr =>
        match (match jLookup fs ("object_attributes") with
               | none => .ok zeroEventAttributes
               | some v => interpEventAttributes v : Except String EventAttributes) with
        | .error e => .error e
        | .ok oa =>
          match (match jLookup fs ("merge_request") with
                 | none => .ok zeroEventAttributes
                 | some v => interpEventAttributes v : Except String EventAttributes) with
          | .error e => .error e
          | .ok mr => .ok ⟨et, pr, oa, mr⟩
  | _ => .error ("cannot unmarshal value into GitlabWebhookPayload")

/-- The first, typed decode of the body: parse the JSON document, then
interpret it against the payload struct. -/
def decodeTyped (cs : List Char) : Except String GitlabWebhookPayload :=
  match parseJson cs with
  | .error e => .error e
  | .ok j => interpPayload j

/-- The second, untyped decode of the same body into a dynamic value:
parse the JSON document, then materialize every number literal to float64,
failing on a literal outside float64 range. -/
def decodeAny (cs : List Char) : Except String Json :=
  match parseJson cs with
  | .error e => .error e
  | .ok j => convertNumbers j

/-- Modelled from the spec: the parsed configuration object from
pkg/config; its contents are opaque to the handler, which only passes it
along, so a tag suffices for the model. -/
structure Config where
  tag : Nat
deriving DecidableEq

/-- Modelled from the spec: the remote configuration file artifact the
client fetch returns; opaque to the handler, which hands it to the parser. -/
structure ConfigFile where
  raw : String
deriving DecidableEq

def statusOK : Nat := 200

def statusBadRequest : Nat := 400

def statusForbidden : Nat := 403

def statusNotAcceptable : Nat := 406

def statusInternalServerError : Nat := 500

/-- One write of a status code and a body to the HTTP response. -/
structure HttpWrite where
  status : Nat
  body : String
deriving DecidableEq

/-- The per-request correlation context fields the handler attaches via
the state helpers; each is none until the corresponding With call runs. -/
structure Ctx where
  projectID : Option String
  mergeRequestID : Option String
  commitSHA : Option String
  eventTypeLabel : Option String
deriving DecidableEq

def emptyCtx : Ctx := ⟨none, none, none, none⟩

/-- The abstract request environment: the request headers and body the
handler inspects, plus oracles for every external collaborator. Header
reads follow Go http.Header.Get, which yields the empty string for a
missing header. The collaborators (client fetch, config parser, global
config, ProcessMR) live outside src/ and are modelled from the spec as
unconstrained functions: getRemoteConfig returns the Go pair of a possibly
nil file and a possibly nil error; parseFile returns the possibly nil
parsed config with its error discarded, as the call site discards it;
processMR returns a possibly nil error. -/
structure HandlerEnv where
  webhookSecret : String
  xGitlabToken : String
  contentType : String
  bodyResult : Except String (List Char)
  configFilePath : String
  globalConfigFilePath : String
  getRemoteConfig : String → String → Option ConfigFile × Option String
  parseFile : ConfigFile → Option Config
  globalConfig : Option Config
  processMR : Option Config → Json → Option String

/-- Everything observable about one handler run: the sequence of response
writes, which stages executed, which collaborators were invoked, the
configuration handed to ProcessMR, and the correlation context. -/
structure HandlerResult where
  writes : List HttpWrite
  bodyRead : Bool
  reachedTypedDecode : Bool
  untypedDecodeAttempted : Bool
  redecodeFailed : Bool
  clientCalled : Bool
  processCalled : Bool
  processCfgArg : Option (Option Config)
  ctx : Ctx
deriving DecidableEq

def initResult : HandlerResult :=
  ⟨[], false, false, false, false, false, false, none, emptyCtx⟩

/-- Modelled from the spec: errHandler (defined outside src/) writes the
given status code and the error text to the response, per the response
table in section 6 of the spec. -/
def errHandler (st : HandlerResult) (status : Nat) (msg : String) : HandlerResult :=
  { st with writes := st.writes ++ [⟨status, msg⟩] }

def forbiddenMsg : String := "Missing or invalid X-Gitlab-Token header"

def notAcceptableMsg : String := "The request is not using Content-Type: application/json"

def emptyBodyMsg : String := "The POST body is empty; expected a JSON payload"

def decodeErrHead : String := "could not decode POST body into Payload struct: "

def unknownEventHead : String := "unknown event type: "

/-- Configuration resolution and processing, the tail of the handler after
the untyped decode succeeded: fetch the remote file pinned to the commit,
abort with an OK-status error write only when the fetch failed and no
global config path is set, otherwise parse the file when one exists or
fall back to the already loaded global configuration, then invoke
ProcessMR and classify its outcome. -/
def resolveAndProcess (env : HandlerEnv) (st : HandlerResult) (gitSha : String)
    (fullEventPayload : Json) : HandlerResult :=
  let st := { st with clientCalled := true }
  let fetched := env.getRemoteConfig env.configFilePath gitSha
  if fetched.2.isSome = true ∧ env.globalConfigFilePath = "" then
    errHandler st statusOK (fetched.2.getD "")
  else
    let cfg : Option Config :=
      match fetched.1 with
      | some f => env.parseFile f
      | none => env.globalConfig
    let st := { st with processCalled := true, processCfgArg := some cfg }
    match env.processMR cfg fullEventPayload with
    | some e => errHandler st statusOK e
    | none => { st with writes := st.writes ++ [⟨statusOK, "OK"⟩] }

/-- The steps after the event switch resolved an id and a commit sha:
attach the commit sha, merge request id and event type label to the
context, run the second, untyped decode of the same body, and continue
into configuration resolution. -/
def handleRouted (env : HandlerEnv) (st : HandlerResult) (body : List Char)
    (payload : GitlabWebhookPayload) (id : String) (gitSha : String) : HandlerResult :=
  let st := { st with ctx := { st.ctx with
    commitSHA := some gitSha
    mergeRequestID := some id
    eventTypeLabel := some payload.eventType } }
  let st := { st with untypedDecodeAttempted := true }
  match decodeAny body with
  | .error e => errHandler { st with redecodeFailed := true } statusInternalServerError e
  | .ok fullEventPayload => resolveAndProcess env st gitSha fullEventPayload

/-- The steps after the typed decode succeeded: attach the project id to
the context and dispatch on the event type, failing with an internal
server error on any kind other than merge_request and note. -/
def afterDecode (env : HandlerEnv) (st : HandlerResult) (body : List Char)
    (payload : GitlabWebhookPayload) : HandlerResult :=
  let st := { st with ctx := { st.ctx with
    projectID := some payload.project.pathWithNamespace } }
  if payload.eventType = "merge_request" then
    handleRouted env st body payload (toString payload.objectAttributes.iid)
      payload.objectAttributes.lastCommit.id
  else if payload.eventType = "note" then
    handleRouted env st body payload (toString payload.mergeRequest.iid)
      payload.mergeRequest.lastCommit.id
  else
    errHandler st statusInternalServerError (unknownEventHead ++ payload.eventType)

/-- The steps once the body bytes are in hand: the empty-body check, which
writes a BadRequest status but does not return, and the typed decode,
whose failure writes BadRequest and returns. -/
def withBody (env : HandlerEnv) (st : HandlerResult) (body : List Char) : HandlerResult :=
  let st := if body.length = 0 then errHandler st statusBadRequest emptyBodyMsg else st
  let st := { st with reachedTypedDecode := true }
  match decodeTyped body with
  | .error e => errHandler st statusBadRequest (decodeErrHead ++ e)
  | .ok payload => afterDecode env st body payload

/-- The steps after the content type check: read the POST body, failing
with BadRequest when the read fails. -/
def afterContentType (env : HandlerEnv) : HandlerResult :=
  match env.bodyResult with
  | .error e => errHandler { initResult with bodyRead := true } statusBadRequest e
  | .ok body => withBody env { initResult with bodyRead := true } body

/-- The steps after the secret check: validate the content type, failing
with NotAcceptable unless it is exactly application/json. -/
def afterAuth (env : HandlerEnv) : HandlerResult :=
  if env.contentType ≠ "application/json" then
    errHandler initResult statusNotAcceptable notAcceptableMsg
  else afterContentType env

/-- The webhook handler of GitLabWebhookHandler from
src/cmd/gitlab_server_handlers.go as a pure function: the secret check
runs first, rejecting with Forbidden when a secret is configured and the
header does not match, then the pipeline stages above in order. -/
def gitLabWebhookHandler (env : HandlerEnv) : HandlerResult :=
  if 0 < env.webhookSecret.length then
    if env.webhookSecret ≠ env.xGitlabToken then
      errHandler initResult statusForbidden forbiddenMsg
    else afterAuth env
  else afterAuth env

/-- A benign environment used to instantiate theorems at concrete inputs:
no secret, JSON content type, every oracle inert. -/
def baseEnv : HandlerEnv :=
  ⟨"", "", "application/json", .ok [], "", "",
   fun _ _ => (none, none), fun _ => none, none, fun _ _ => none⟩

/-- The routed commit sha, as the event switch computes it. -/
def routedSha (p : GitlabWebhookPayload) : String :=
  if p.eventType = "merge_request" then p.objectAttributes.lastCommit.id
  else p.mergeRequest.lastCommit.id

/-- The routed merge request id, as the event switch computes it. -/
def routedId (p : GitlabWebhookPayload) : String :=
  if p.eventType = "merge_request" then toString p.objectAttributes.iid
  else toString p.mergeRequest.iid

/-- The handler state just before configuration resolution, for a request
whose body decoded and routed successfully. -/
def preResolveState (p : GitlabWebhookPayload) : HandlerResult :=
  { writes := []
    bodyRead := true
    reachedTypedDecode := true
    untypedDecodeAttempted := true
    redecodeFailed := false
    clientCalled := false
    processCalled := false
    processCfgArg := none
    ctx := ⟨some p.project.pathWithNamespace, some (routedId p),
           some (routedSha p), some p.eventType⟩ }

/-- A request with a configured secret, a mismatching token and a
text/plain content type, used to examine the ordering of the checks. -/
def badAuthBadTypeEnv : HandlerEnv :=
  { baseEnv with webhookSecret := "s", xGitlabToken := "t", contentType := "text/plain" }

/-- A concrete note-event webhook body used to instantiate theorems. -/
def noteBody : List Char :=
  ("\x7b\"event_type\":\"note\",\"merge_request\":\x7b\"iid\":7,\"last_commit\":\x7b\"id\":\"abc\"\x7d\x7d\x7d").data

/-- The payload the typed decode yields on noteBody. -/
def notePayload : GitlabWebhookPayload :=
  ⟨"note", zeroProjectInfo, zeroEventAttributes, ⟨7, ⟨"abc"⟩⟩⟩

/-- The document the parse of noteBody yields. -/
def noteJson : Json :=
  .jobj [("event_type", .jstr ("note")),
         ("merge_request",
          .jobj [("iid", .jnum ("7")),
                 ("last_commit", .jobj [("id", .jstr ("abc"))])])]

/-- A body whose typed decode succeeds while its untyped decode fails: the
unknown field n carries the literal 1e400, which the typed decode skips
without conversion and the untyped decode fails to materialize as float64. -/
def c10Body : List Char :=
  ("\x7b\"event_type\":\"note\",\"n\":1e400\x7d").data

/-- The payload the typed decode yields on c10Body: the unknown field is
skipped, every modelled field keeps its zero value except the event type. -/
def c10Payload : GitlabWebhookPayload :=
  ⟨"note", zeroProjectInfo, zeroEventAttributes, zeroEventAttributes⟩

def c10Env : HandlerEnv :=
  { baseEnv with bodyResult := .ok c10Body }

def c10OkEnv : HandlerEnv :=
  { baseEnv with bodyResult := .ok noteBody }

/-- A concrete webhook body with an unrecognized event type. -/
def pipelineBody : List Char := ("\x7b\"event_type\":\"pipeline\"\x7d").data

def pipelinePayload : GitlabWebhookPayload :=
  ⟨"pipeline", zeroProjectInfo, zeroEventAttributes, zeroEventAttributes⟩

def c2EnvNoGlobal : HandlerEnv :=
  { baseEnv with
    bodyResult := .ok noteBody
    getRemoteConfig := fun _ _ => (none, some ("boom")) }

def c2EnvWithGlobal : HandlerEnv :=
  { baseEnv with
    bodyResult := .ok noteBody
    getRemoteConfig := fun _ _ => (none, some ("boom"))
    globalConfigFilePath := "global.yml"
    globalConfig := some ⟨1⟩ }

def c3Env : HandlerEnv :=
  { baseEnv with
    bodyResult := .ok noteBody
    getRemoteConfig := fun _ _ => (some ⟨"bad"⟩, none)
    parseFile := fun _ => none }

def c4Env : HandlerEnv :=
  { baseEnv with bodyResult := .ok noteBody }

def c6Env : HandlerEnv :=
  { baseEnv with bodyResult := .ok pipelineBody }

def c8EnvErr : HandlerEnv :=
  { baseEnv with
    bodyResult := .ok noteBody
    processMR := fun _ _ => some ("pfail") }

def c8EnvOk : HandlerEnv :=
  { baseEnv with bodyResult := .ok noteBody }

lemma handler_auth_pass (env : HandlerEnv)
    (h : env.webhookSecret = "" ∨ env.xGitlabToken = env.webhookSecret) :
    gitLabWebhookHandler env = afterAuth env := by
  unfold gitLabWebhookHandler
  rcases h with h | h
  · simp [h]
  · simp [h]

lemma afterAuth_pass (env : HandlerEnv)
    (h : env.contentType = "application/json") :
    afterAuth env = afterContentType env := by
  simp [afterAuth, h]

lemma handler_reaches_decode (env : HandlerEnv) (body : List Char)
    (hsec : env.webhookSecret = "" ∨ env.xGitlabToken = env.webhookSecret)
    (hct : env.contentType = "application/json")
    (hb : env.bodyResult = .ok body) :
    gitLabWebhookHandler env = withBody env { initResult with bodyRead := true } body := by
  rw [handler_auth_pass env hsec, afterAuth_pass env hct]
  unfold afterContentType
  rw [hb]

lemma decodeTyped_nil : decodeTyped ([]) = .error ("EOF") := rfl

lemma decode_ok_ne_nil (body : List Char) (payload : GitlabWebhookPayload)
    (h : decodeTyped body = .ok payload) : body ≠ [] := by
  intro hb
  rw [hb, decodeTyped_nil] at h
  cases h

lemma typed_ok_parse (body : List Char) (payload : GitlabWebhookPayload)
    (h : decodeTyped body = .ok payload) :
    ∃ j, parseJson body = .ok j ∧ decodeAny body = convertNumbers j := by
  unfold decodeTyped at h
  cases hp : parseJson body with
  | error e => rw [hp] at h; cases h
  | ok j =>
    refine ⟨j, rfl, ?_⟩
    unfold decodeAny
    rw [hp]

mutual

lemma convertNumbers_ok : ∀ j : Json, jsonNumbersInRange j = true →
    convertNumbers j = .ok j
  | .null, _ => rfl
  | .jbool _, _ => rfl
  | .jstr _, _ => rfl
  | .jnum s, h => by
    have hs : numLitOverflows s = false := by
      simpa [jsonNumbersInRange] using h
    unfold convertNumbers
    rw [if_neg (by rw [hs]; exact Bool.false_ne_true)]
  | .jarr xs, h => by
    unfold convertNumbers
    rw [convertNumbersList_ok xs (by simpa [jsonNumbersInRange] using h)]
    rfl
  | .jobj fs, h => by
    unfold convertNumbers
    rw [convertNumbersFields_ok fs (by simpa [jsonNumbersInRange] using h)]
    rfl

lemma convertNumbersList_ok : ∀ xs : List Json, jsonListInRange xs = true →
    convertNumbersList xs = .ok xs
  | [], _ => rfl
  | x :: xs, h => by
    have h12 : jsonNumbersInRange x = true ∧ jsonListInRange xs = true := by
      simpa [jsonListInRange, Bool.and_eq_true] using h
    unfold convertNumbersList
    rw [convertNumbers_ok x h12.1, convertNumbersList_ok xs h12.2]

lemma convertNumbersFields_ok : ∀ fs : List (String × Json),
    jsonFieldsInRange fs = true → convertNumbersFields fs = .ok fs
  | [], _ => rfl
  | (k, v) :: fs, h => by
    have h12 : jsonNumbersInRange v = true ∧ jsonFieldsInRange fs = true := by
      simpa [jsonFieldsInRange, Bool.and_eq_true] using h
    unfold convertNumbersFields
    rw [convertNumbers_ok v h12.1, convertNumbersFields_ok fs h12.2]

end

lemma withBody_ok (env : HandlerEnv) (st : HandlerResult) (body : List Char)
    (payload : GitlabWebhookPayload)
    (hdec : decodeTyped body = .ok payload) :
    withBody env st body =
      afterDecode env { st with reachedTypedDecode := true } body payload := by
  unfold withBody
  have hne : ¬ body.length = 0 := by
    intro h
    exact decode_ok_ne_nil body payload hdec (List.length_eq_zero.mp h)
  rw [if_neg hne, hdec]

lemma handler_eq_resolve (env : HandlerEnv) (body : List Char)
    (payload : GitlabWebhookPayload) (j : Json)
    (hsec : env.webhookSecret = "" ∨ env.xGitlabToken = env.webhookSecret)
    (hct : env.contentType = "application/json")
    (hb : env.bodyResult = .ok body)
    (hdec : decodeTyped body = .ok payload)
    (hj : decodeAny body = .ok j)
    (het : payload.eventType = "merge_request" ∨ payload.eventType = "note") :
    gitLabWebhookHandler env =
      resolveAndProcess env (preResolveState payload) (routedSha payload) j := by
  rw [handler_reaches_decode env body hsec hct hb,
      withBody_ok env _ body payload hdec]
  unfold afterDecode handleRouted
  rcases het with het | het
  · rw [if_pos het, hj]
    simp [preResolveState, routedId, routedSha, het, initResult, emptyCtx]
  · have hne : ¬ payload.eventType = "merge_request" := by
      rw [het]; decide
    rw [if_neg hne, if_pos het, hj]
    simp [preResolveState, routedId, routedSha, het, hne, initResult, emptyCtx]

lemma resolveAndProcess_proceed (env : HandlerEnv) (st : HandlerResult)
    (sha : String) (full : Json)
    (h : ¬((env.getRemoteConfig env.configFilePath sha).2.isSome = true ∧
        env.globalConfigFilePath = "")) :
    (resolveAndProcess env st sha full).processCalled = true ∧
    (resolveAndProcess env st sha full).processCfgArg =
      some (match (env.getRemoteConfig env.configFilePath sha).1 with
            | some f => env.parseFile f
            | none => env.globalConfig) := by
  unfold resolveAndProcess
  dsimp only
  rw [if_neg h]
  constructor <;> (split <;> rfl)

lemma resolveAndProcess_ctx (env : HandlerEnv) (st : HandlerResult)
    (sha : String) (full : Json) :
    (resolveAndProcess env st sha full).ctx = st.ctx := by
  unfold resolveAndProcess
  dsimp only
  split
  · rfl
  · split <;> rfl

lemma handleRouted_ctx (env : HandlerEnv) (st : HandlerResult) (body : List Char)
    (payload : GitlabWebhookPayload) (id : String) (sha : String) :
    (handleRouted env st body payload id sha).ctx =
      { st.ctx with
        commitSHA := some sha
        mergeRequestID := some id
        eventTypeLabel := some payload.eventType } := by
  unfold handleRouted
  dsimp only
  split
  · rfl
  · rw [resolveAndProcess_ctx]

lemma resolveAndProcess_redecode (env : HandlerEnv) (st : HandlerResult)
    (sha : String) (full : Json) :
    (resolveAndProcess env st sha full).redecodeFailed = st.redecodeFailed := by
  unfold resolveAndProcess
  dsimp only
  split
  · rfl
  · split <;> rfl

lemma handleRouted_redecode (env : HandlerEnv) (st : HandlerResult) (body : List Char)
    (payload : GitlabWebhookPayload) (id : String) (sha : String)
    (hj : ∃ j, decodeAny body = .ok j) :
    (handleRouted env st body payload id sha).redecodeFailed = st.redecodeFailed := by
  obtain ⟨j, hj⟩ := hj
  unfold handleRouted
  dsimp only
  rw [hj]
  exact resolveAndProcess_redecode env _ sha j

lemma afterDecode_redecode (env : HandlerEnv) (st : HandlerResult) (body : List Char)
    (payload : GitlabWebhookPayload)
    (hj : ∃ j, decodeAny body = .ok j) :
    (afterDecode env st body payload).redecodeFailed = st.redecodeFailed := by
  unfold afterDecode
  by_cases h1 : payload.eventType = "merge_request"
  · rw [if_pos h1]
    exact handleRouted_redecode env _ body payload _ _ hj
  · rw [if_neg h1]
    by_cases h2 : payload.eventType = "note"
    · rw [if_pos h2]
      exact handleRouted_redecode env _ body payload _ _ hj
    · rw [if_neg h2]
      rfl

lemma withBody_redecode (env : HandlerEnv) (st : HandlerResult) (body : List Char)
    (hj : ∃ j, decodeAny body = .ok j)
    (h : st.redecodeFailed = false) :
    (withBody env st body).redecodeFailed = false := by
  unfold withBody
  dsimp only
  cases hd : decodeTyped body with
  | error e =>
    by_cases hz : body.length = 0 <;> simp [hz, errHandler, h]
  | ok payload =>
    rw [afterDecode_redecode env _ body payload hj]
    by_cases hz : body.length = 0 <;> simp [hz, errHandler, h]

lemma handler_redecode_of_ok (env : HandlerEnv) (body : List Char)
    (hb : env.bodyResult = .ok body)
    (hj : ∃ j, decodeAny body = .ok j) :
    (gitLabWebhookHandler env).redecodeFailed = false := by
  unfold gitLabWebhookHandler afterAuth
  have hac : (afterContentType env).redecodeFailed = false := by
    unfold afterContentType
    rw [hb]
    exact withBody_redecode env _ body hj rfl
  split
  · split
    · rfl
    · split
      · rfl
      · exact hac
  · split
    · rfl
    · exact hac

lemma noteBody_decodes : decodeTyped noteBody = .ok notePayload := rfl

lemma noteBody_any : decodeAny noteBody = .ok noteJson := rfl

/-- C1: a request that passes the secret and content type checks and
carries an empty body receives a BadRequest write from the empty-body
check, yet the handler does not halt there: it reaches the typed JSON
decode of the empty buffer, whose EOF failure produces a second BadRequest
write. -/
theorem c1_empty_body_continues (env : HandlerEnv)
    (hsec : env.webhookSecret = "" ∨ env.xGitlabToken = env.webhookSecret)
    (hct : env.contentType = "application/json")
    (hb : env.bodyResult = .ok []) :
    (gitLabWebhookHandler env).writes =
      [⟨statusBadRequest, emptyBodyMsg⟩,
       ⟨statusBadRequest, decodeErrHead ++ "EOF"⟩] ∧
    (gitLabWebhookHandler env).reachedTypedDecode = true := by
  rw [handler_reaches_decode env ([]) hsec hct hb]
  exact ⟨rfl, rfl⟩

theorem c1_witness :
    (gitLabWebhookHandler baseEnv).writes =
      [⟨statusBadRequest, emptyBodyMsg⟩,
       ⟨statusBadRequest, decodeErrHead ++ "EOF"⟩] ∧
    (gitLabWebhookHandler baseEnv).reachedTypedDecode = true :=
  c1_empty_body_continues baseEnv (Or.inl rfl) rfl rfl

/-- C2: a remote config fetch error is fatal exactly when no global config
path is set. With an empty global path the handler answers with a single
OK-status write carrying the fetch error text and never invokes ProcessMR;
with a non-empty global path it proceeds, passing the global configuration
to ProcessMR. A request reaches configuration resolution only after both
decodes succeed, so the successful untyped decode is part of the
precondition. -/
theorem c2_fetch_error_policy (env : HandlerEnv) (body : List Char)
    (payload : GitlabWebhookPayload) (j : Json) (e : String)
    (hsec : env.webhookSecret = "" ∨ env.xGitlabToken = env.webhookSecret)
    (hct : env.contentType = "application/json")
    (hb : env.bodyResult = .ok body)
    (hdec : decodeTyped body = .ok payload)
    (hj : decodeAny body = .ok j)
    (het : payload.eventType = "merge_request" ∨ payload.eventType = "note")
    (hfetch : env.getRemoteConfig env.configFilePath (routedSha payload) = (none, some e)) :
    (env.globalConfigFilePath = "" →
      (gitLabWebhookHandler env).writes = [⟨statusOK, e⟩] ∧
      (gitLabWebhookHandler env).processCalled = false) ∧
    (env.globalConfigFilePath ≠ "" →
      (gitLabWebhookHandler env).processCalled = true ∧
      (gitLabWebhookHandler env).processCfgArg = some env.globalConfig) := by
  rw [handler_eq_resolve env body payload j hsec hct hb hdec hj het]
  unfold resolveAndProcess
  rw [hfetch]
  constructor
  · intro hg
    rw [if_pos ⟨rfl, hg⟩]
    exact ⟨rfl, rfl⟩
  · intro hg
    rw [if_neg (fun hand => hg hand.2)]
    cases hm : env.processMR env.globalConfig j with
    | some e2 => simp [hm, errHandler, preResolveState]
    | none => simp [hm, preResolveState]

theorem c2_witness :
    ((gitLabWebhookHandler c2EnvNoGlobal).writes = [⟨statusOK, "boom"⟩] ∧
     (gitLabWebhookHandler c2EnvNoGlobal).processCalled = false) ∧
    ((gitLabWebhookHandler c2EnvWithGlobal).processCalled = true ∧
     (gitLabWebhookHandler c2EnvWithGlobal).processCfgArg = some (some ⟨1⟩)) := by
  refine ⟨(c2_fetch_error_policy c2EnvNoGlobal noteBody notePayload noteJson ("boom")
    (Or.inl rfl) rfl rfl noteBody_decodes noteBody_any (Or.inr rfl) rfl).1 rfl, ?_⟩
  exact (c2_fetch_error_policy c2EnvWithGlobal noteBody notePayload noteJson ("boom")
    (Or.inl rfl) rfl rfl noteBody_decodes noteBody_any (Or.inr rfl) rfl).2 (by decide)

/-- C3: when the remote fetch returns a file without error but parsing it
fails, the handler still invokes ProcessMR, hands it a null configuration,
and never consults the global fallback: the run is unchanged under any
replacement of the global configuration value. A request reaches
configuration resolution only after both decodes succeed, so the
successful untyped decode is part of the precondition. -/
theorem c3_parse_failure_tolerated (env : HandlerEnv) (body : List Char)
    (payload : GitlabWebhookPayload) (j : Json) (f : ConfigFile)
    (hsec : env.webhookSecret = "" ∨ env.xGitlabToken = env.webhookSecret)
    (hct : env.contentType = "application/json")
    (hb : env.bodyResult = .ok body)
    (hdec : decodeTyped body = .ok payload)
    (hj : decodeAny body = .ok j)
    (het : payload.eventType = "merge_request" ∨ payload.eventType = "note")
    (hfetch : env.getRemoteConfig env.configFilePath (routedSha payload) = (some f, none))
    (hparse : env.parseFile f = none) :
    (gitLabWebhookHandler env).processCalled = true ∧
    (gitLabWebhookHandler env).processCfgArg = some none ∧
    (∀ g, gitLabWebhookHandler { env with globalConfig := g } = gitLabWebhookHandler env) := by
  have hnf : ¬((env.getRemoteConfig env.configFilePath (routedSha payload)).2.isSome = true ∧
      env.globalConfigFilePath = "") := by
    rw [hfetch]
    exact fun hand => Bool.false_ne_true hand.1
  have hmain := handler_eq_resolve env body payload j hsec hct hb hdec hj het
  have hpr := resolveAndProcess_proceed env (preResolveState payload) (routedSha payload) j hnf
  refine ⟨by rw [hmain]; exact hpr.1, ?_, ?_⟩
  · rw [hmain, hpr.2, hfetch]
    show some (env.parseFile f) = some none
    rw [hparse]
  · intro g
    have hfetch2 : ({ env with globalConfig := g } : HandlerEnv).getRemoteConfig
        env.configFilePath (routedSha payload) = (some f, none) := hfetch
    rw [handler_eq_resolve { env with globalConfig := g } body payload j hsec hct hb hdec hj het,
        hmain]
    simp only [resolveAndProcess, hfetch, hfetch2]

theorem c3_witness :
    (gitLabWebhookHandler c3Env).processCalled = true ∧
    (gitLabWebhookHandler c3Env).processCfgArg = some none ∧
    gitLabWebhookHandler { c3Env with globalConfig := some ⟨5⟩ } =
      gitLabWebhookHandler c3Env := by
  have h := c3_parse_failure_tolerated c3Env noteBody notePayload noteJson ⟨"bad"⟩
    (Or.inl rfl) rfl rfl noteBody_decodes noteBody_any (Or.inr rfl) rfl rfl
  exact ⟨h.1, h.2.1, h.2.2 (some ⟨5⟩)⟩

/-- C4: for a decoded merge_request event the correlation context carries
the object_attributes internal ID (rendered in decimal) and its last
commit id; for a decoded note event it carries the related merge request
internal ID and its last commit id. -/
theorem c4_event_routing (env : HandlerEnv) (body : List Char)
    (payload : GitlabWebhookPayload)
    (hsec : env.webhookSecret = "" ∨ env.xGitlabToken = env.webhookSecret)
    (hct : env.contentType = "application/json")
    (hb : env.bodyResult = .ok body)
    (hdec : decodeTyped body = .ok payload) :
    (payload.eventType = "merge_request" →
      (gitLabWebhookHandler env).ctx.mergeRequestID =
        some (toString payload.objectAttributes.iid) ∧
      (gitLabWebhookHandler env).ctx.commitSHA =
        some payload.objectAttributes.lastCommit.id) ∧
    (payload.eventType = "note" →
      (gitLabWebhookHandler env).ctx.mergeRequestID =
        some (toString payload.mergeRequest.iid) ∧
      (gitLabWebhookHandler env).ctx.commitSHA =
        some payload.mergeRequest.lastCommit.id) := by
  rw [handler_reaches_decode env body hsec hct hb,
      withBody_ok env _ body payload hdec]
  unfold afterDecode
  constructor
  · intro het
    rw [if_pos het, handleRouted_ctx]
    exact ⟨rfl, rfl⟩
  · intro het
    have hne : ¬ payload.eventType = "merge_request" := by
      rw [het]; decide
    rw [if_neg hne, if_pos het, handleRouted_ctx]
    exact ⟨rfl, rfl⟩

theorem c4_witness :
    (gitLabWebhookHandler c4Env).ctx.mergeRequestID = some ("7") ∧
    (gitLabWebhookHandler c4Env).ctx.commitSHA = some ("abc") :=
  (c4_event_routing c4Env noteBody notePayload
    (Or.inl rfl) rfl rfl noteBody_decodes).2 rfl

/-- C5: with a configured non-empty secret and a mismatching or missing
X-Gitlab-Token header the response is exactly one Forbidden write and no
downstream work runs: the body is not read and neither the platform client
nor ProcessMR is invoked; with an empty configured secret the check always
passes and the handler proceeds to the rest of the pipeline. -/
theorem c5_secret_gate (env : HandlerEnv) :
    (0 < env.webhookSecret.length → env.xGitlabToken ≠ env.webhookSecret →
      (gitLabWebhookHandler env).writes = [⟨statusForbidden, forbiddenMsg⟩] ∧
      (gitLabWebhookHandler env).bodyRead = false ∧
      (gitLabWebhookHandler env).clientCalled = false ∧
      (gitLabWebhookHandler env).processCalled = false) ∧
    (env.webhookSecret = "" → gitLabWebhookHandler env = afterAuth env) := by
  constructor
  · intro h1 h2
    unfold gitLabWebhookHandler
    rw [if_pos h1, if_pos (Ne.symm h2)]
    exact ⟨rfl, rfl, rfl, rfl⟩
  · intro h
    exact handler_auth_pass env (Or.inl h)

theorem c5_witness :
    (gitLabWebhookHandler { baseEnv with webhookSecret := "s" }).writes =
      [⟨statusForbidden, forbiddenMsg⟩] ∧
    gitLabWebhookHandler baseEnv = afterAuth baseEnv := by
  refine ⟨((c5_secret_gate { baseEnv with webhookSecret := "s" }).1 (by decide) (by decide)).1, ?_⟩
  exact (c5_secret_gate baseEnv).2 rfl

/-- C6: a decoded payload whose event type is neither merge_request nor
note is answered with a single InternalServerError write naming the
unknown event type, and neither the untyped re-decode nor the config fetch
nor ProcessMR runs. -/
theorem c6_unknown_event (env : HandlerEnv) (body : List Char)
    (payload : GitlabWebhookPayload)
    (hsec : env.webhookSecret = "" ∨ env.xGitlabToken = env.webhookSecret)
    (hct : env.contentType = "application/json")
    (hb : env.bodyResult = .ok body)
    (hdec : decodeTyped body = .ok payload)
    (h1 : payload.eventType ≠ "merge_request")
    (h2 : payload.eventType ≠ "note") :
    (gitLabWebhookHandler env).writes =
      [⟨statusInternalServerError, unknownEventHead ++ payload.eventType⟩] ∧
    (gitLabWebhookHandler env).untypedDecodeAttempted = false ∧
    (gitLabWebhookHandler env).clientCalled = false ∧
    (gitLabWebhookHandler env).processCalled = false := by
  rw [handler_reaches_decode env body hsec hct hb,
      withBody_ok env _ body payload hdec]
  unfold afterDecode
  rw [if_neg h1, if_neg h2]
  exact ⟨rfl, rfl, rfl, rfl⟩

theorem c6_witness :
    (gitLabWebhookHandler c6Env).writes =
      [⟨statusInternalServerError, unknownEventHead ++ "pipeline"⟩] ∧
    (gitLabWebhookHandler c6Env).untypedDecodeAttempted = false ∧
    (gitLabWebhookHandler c6Env).clientCalled = false ∧
    (gitLabWebhookHandler c6Env).processCalled = false :=
  c6_unknown_event c6Env pipelineBody pipelinePayload
    (Or.inl rfl) rfl rfl rfl (by decide) (by decide)

/-- C7 counterexample: a request with a configured secret, a mismatching
token and Content-Type text/plain is answered with a single Forbidden
write, not a NotAcceptable one, so the claim that every request with a
non-JSON content type gets a 406 response fails on this input. -/
theorem c7_counterexample :
    badAuthBadTypeEnv.contentType ≠ "application/json" ∧
    (gitLabWebhookHandler badAuthBadTypeEnv).writes = [⟨statusForbidden, forbiddenMsg⟩] ∧
    statusForbidden ≠ statusNotAcceptable := by
  refine ⟨by decide, by decide, by decide⟩

/-- C7 amended: for every request that passes the secret check and whose
Content-Type header differs from application/json, the response is exactly
one NotAcceptable write and the body is never read. -/
theorem c7_content_type_gate (env : HandlerEnv)
    (hsec : env.webhookSecret = "" ∨ env.xGitlabToken = env.webhookSecret)
    (hct : env.contentType ≠ "application/json") :
    (gitLabWebhookHandler env).writes = [⟨statusNotAcceptable, notAcceptableMsg⟩] ∧
    (gitLabWebhookHandler env).bodyRead = false := by
  rw [handler_auth_pass env hsec]
  unfold afterAuth
  rw [if_pos hct]
  exact ⟨rfl, rfl⟩

theorem c7_witness :
    (gitLabWebhookHandler { baseEnv with contentType := "text/plain" }).writes =
      [⟨statusNotAcceptable, notAcceptableMsg⟩] ∧
    (gitLabWebhookHandler { baseEnv with contentType := "text/plain" }).bodyRead = false :=
  c7_content_type_gate { baseEnv with contentType := "text/plain" } (Or.inl rfl) (by decide)

/-- C8: once the request reaches the processing stage, a ProcessMR error
is acknowledged with a single OK-status write carrying the error text, and
a ProcessMR success with a single OK-status write with the fixed body OK.
A request reaches the processing stage only after both decodes succeed, so
the successful untyped decode is part of the precondition. -/
theorem c8_soft_failure (env : HandlerEnv) (body : List Char)
    (payload : GitlabWebhookPayload) (j : Json) (e : String)
    (hsec : env.webhookSecret = "" ∨ env.xGitlabToken = env.webhookSecret)
    (hct : env.contentType = "application/json")
    (hb : env.bodyResult = .ok body)
    (hdec : decodeTyped body = .ok payload)
    (hj : decodeAny body = .ok j)
    (het : payload.eventType = "merge_request" ∨ payload.eventType = "note")
    (hnf : ¬((env.getRemoteConfig env.configFilePath (routedSha payload)).2.isSome = true ∧
        env.globalConfigFilePath = "")) :
    (env.processMR = (fun _ _ => some e) →
      (gitLabWebhookHandler env).writes = [⟨statusOK, e⟩]) ∧
    (env.processMR = (fun _ _ => none) →
      (gitLabWebhookHandler env).writes = [⟨statusOK, "OK"⟩]) := by
  rw [handler_eq_resolve env body payload j hsec hct hb hdec hj het]
  unfold resolveAndProcess
  dsimp only
  rw [if_neg hnf]
  constructor
  · intro hp
    rw [hp]
    simp [errHandler, preResolveState]
  · intro hp
    rw [hp]
    simp [preResolveState]

theorem c8_witness :
    (gitLabWebhookHandler c8EnvErr).writes = [⟨statusOK, "pfail"⟩] ∧
    (gitLabWebhookHandler c8EnvOk).writes = [⟨statusOK, "OK"⟩] := by
  refine ⟨(c8_soft_failure c8EnvErr noteBody notePayload noteJson ("pfail")
    (Or.inl rfl) rfl rfl noteBody_decodes noteBody_any (Or.inr rfl) (by decide)).1 rfl, ?_⟩
  exact (c8_soft_failure c8EnvOk noteBody notePayload noteJson ("pfail")
    (Or.inl rfl) rfl rfl noteBody_decodes noteBody_any (Or.inr rfl) (by decide)).2 rfl

/-- C9: the typed decode of the zero-length body always fails with EOF,
so despite the missing return after the empty-body write the decode branch
terminates the handler: on an empty body neither the remote configuration
fetch nor ProcessMR is ever invoked. -/
theorem c9_empty_body_safe (env : HandlerEnv)
    (hsec : env.webhookSecret = "" ∨ env.xGitlabToken = env.webhookSecret)
    (hct : env.contentType = "application/json")
    (hb : env.bodyResult = .ok []) :
    decodeTyped ([]) = .error ("EOF") ∧
    (gitLabWebhookHandler env).clientCalled = false ∧
    (gitLabWebhookHandler env).processCalled = false := by
  refine ⟨decodeTyped_nil, ?_, ?_⟩ <;>
  · rw [handler_reaches_decode env ([]) hsec hct hb]
    rfl

theorem c9_witness :
    decodeTyped ([]) = .error ("EOF") ∧
    (gitLabWebhookHandler baseEnv).clientCalled = false ∧
    (gitLabWebhookHandler baseEnv).processCalled = false :=
  c9_empty_body_safe baseEnv (Or.inl rfl) rfl rfl

/-- C10 counterexample: a body whose unknown field n carries the literal
1e400 passes the typed decode, which skips the unknown field without
converting it, while the untyped decode fails materializing the literal to
float64; the handler therefore takes the InternalServerError branch
guarding the second decode, so that branch is reachable and the claim as
stated is false. -/
theorem c10_counterexample :
    decodeTyped c10Body = .ok c10Payload ∧
    decodeAny c10Body = .error ("cannot unmarshal number 1e400 into float64") ∧
    (gitLabWebhookHandler c10Env).redecodeFailed = true ∧
    (gitLabWebhookHandler c10Env).writes =
      [⟨statusInternalServerError,
        "cannot unmarshal number 1e400 into float64"⟩] := by
  exact ⟨rfl, rfl, by decide, by decide⟩

/-- C10 amended: for a body whose typed decode succeeds the parse itself
succeeded, so the untyped decode of the same body can fail only in its
number-to-float64 materialization; whenever every number literal of the
parsed document is within float64 range the untyped decode succeeds, and
the handler never takes the InternalServerError re-decode branch on such a
request. -/
theorem c10_redecode_range_only :
    (∀ (body : List Char) (payload : GitlabWebhookPayload),
      decodeTyped body = .ok payload →
      ∃ j, parseJson body = .ok j ∧ decodeAny body = convertNumbers j) ∧
    (∀ j : Json, jsonNumbersInRange j = true → convertNumbers j = .ok j) ∧
    (∀ (env : HandlerEnv) (body : List Char) (j : Json),
      env.bodyResult = .ok body → parseJson body = .ok j →
      jsonNumbersInRange j = true →
      (gitLabWebhookHandler env).redecodeFailed = false) := by
  refine ⟨typed_ok_parse, convertNumbers_ok, ?_⟩
  intro env body j hb hp hr
  apply handler_redecode_of_ok env body hb
  refine ⟨j, ?_⟩
  unfold decodeAny
  rw [hp]
  exact convertNumbers_ok j hr

theorem c10_witness :
    (∃ j, parseJson noteBody = .ok j ∧ decodeAny noteBody = convertNumbers j) ∧
    convertNumbers noteJson = .ok noteJson ∧
    (gitLabWebhookHandler c10OkEnv).redecodeFailed = false :=
  ⟨c10_redecode_range_only.1 noteBody notePayload noteBody_decodes,
   c10_redecode_range_only.2.1 noteJson rfl,
   c10_redecode_range_only.2.2 c10OkEnv noteBody noteJson rfl rfl rfl⟩
